import Mathlib

/-!
Verification of the anki markdown importer (src/main.py) against its
natural-language specification.  The Python source is shallowly embedded:
pure helpers become Lean functions on `String`/`List Char`, the mutable
`AnkiHelper` state becomes an explicit `RunState` record threaded through
the functions, and the external collaborators (filesystem listing, the
AnkiConnect store, the markdown renderer) become explicit parameters.
All string handling is over the ASCII fragment actually exercised by the
program (Python's `str.lower`, `\w`, whitespace are Unicode-aware; the
embedding models their ASCII behaviour).
-/

/-! ## Python string primitives used by the source -/

/-- Python `str.lower()` (ASCII model). -/
def pyLower (s : String) : String := String.mk (s.toList.map Char.toLower)

/-- A character of Python's regex class `\w` (ASCII model): letter, digit or
underscore. -/
def pyIsWordChar (c : Char) : Bool := c.isAlphanum || c == '_'

/-- Whitespace stripped by Python `str.strip()` (ASCII model). -/
def pyIsSpace (c : Char) : Bool :=
  c == ' ' || c == '\t' || c == '\n' || c == '\r' || c == '\x0b' || c == '\x0c'

/-- Python `str.strip()` on a character list. -/
def stripL (l : List Char) : List Char :=
  ((l.dropWhile pyIsSpace).reverse.dropWhile pyIsSpace).reverse

/-- Index of the last occurrence of `c` in `l`, if any
(Python `str.rfind`, restricted to a single character). -/
def lastIdxOfAux (c : Char) : List Char → Nat → Option Nat
  | [], _ => none
  | x :: xs, i =>
    match lastIdxOfAux c xs (i + 1) with
    | some j => some j
    | none => if x == c then some i else none

def lastIdxOf (c : Char) (l : List Char) : Option Nat := lastIdxOfAux c l 0

/-- Embedding of `os.path.splitext` (posix): split at the last dot of the final path
component, except that leading dots of that component never start an
extension. -/
def pySplitextL (l : List Char) : List Char × List Char :=
  match lastIdxOf '.' l with
  | none => (l, [])
  | some d =>
    let start :=
      match lastIdxOf '/' l with
      | none => some 0
      | some s => if s < d then some (s + 1) else none
    match start with
    | none => (l, [])
    | some st =>
      if ((l.drop st).take (d - st)).any (fun c => c != '.') then
        (l.take d, l.drop d)
      else
        (l, [])

/-- Embedding of `os.path.splitext` on strings, returning (root, extension). -/
def pySplitext (s : String) : String × String :=
  let p := pySplitextL s.toList
  (String.mk p.1, String.mk p.2)

example : pySplitext "note.md" = ("note", ".md") := by decide
example : pySplitext ".md" = (".md", "") := by decide
example : pySplitext "a.tar.gz" = ("a.tar", ".gz") := by decide
example : pySplitext "plain" = ("plain", "") := by decide

/-! ## Tag extraction (`extract_tags_raw_content`, `re.findall r'#(\w+)'`) -/

/-- One step of Python's `re.findall(r'#(\w+)', content)` scan: at a `#`
followed by at least one word character the maximal word run is captured
and the scan resumes after it; otherwise the scan advances one character.
`fuel` bounds the number of scan steps (the input length always suffices). -/
def findTagsAux : Nat → List Char → List String
  | 0, _ => []
  | _ + 1, [] => []
  | fuel + 1, c :: cs =>
    if c == '#' then
      let w := cs.takeWhile pyIsWordChar
      if w.isEmpty then findTagsAux fuel cs
      else String.mk w :: findTagsAux fuel (cs.drop w.length)
    else findTagsAux fuel cs

/-- Embedding of `AnkiHelper.extract_tags_raw_content`. -/
def extract_tags_raw_content (content : String) : List String :=
  findTagsAux content.toList.length content.toList

example : extract_tags_raw_content "#todo some text" = ["todo"] := by decide
example : extract_tags_raw_content "a #x#y_2 ## b" = ["x", "y_2"] := by decide
example : extract_tags_raw_content "#not_included" = ["not_included"] := by decide

/-! ## Image masking (`extract_and_replace_images`)

Pattern: `!\[\[([^|\]]+\.(?:png|jpg|jpeg|gif|bmp|svg|webp|tiff|tif|ico))(?:\|[^\]]*)?\]\]`,
replaced by the fixed placeholder.  The matcher below reproduces the
backtracking order of the Python engine: the `[^|\]]+` group is tried
longest-first (so the extension dot is the rightmost workable dot), the
extension alternatives are tried in the pattern's order, and the optional
pipe-alias group is greedy. -/

def imageExts : List (List Char) :=
  ["png".toList, "jpg".toList, "jpeg".toList, "gif".toList, "bmp".toList,
   "svg".toList, "webp".toList, "tiff".toList, "tif".toList, "ico".toList]

/-- Match `(?:\|[^\]]*)?\]\]` at the head of `l`; returns consumed length. -/
def matchPipeClose (l : List Char) : Option Nat :=
  match l with
  | ']' :: ']' :: _ => some 2
  | '|' :: rest =>
    let r := rest.takeWhile (fun c => c != ']')
    match rest.drop r.length with
    | ']' :: ']' :: _ => some (1 + r.length + 2)
    | _ => none
  | _ => none

/-- Match `(?:png|…|ico)(?:\|[^\]]*)?\]\]` at the head of `l`. -/
def matchExtClose (l : List Char) : Option Nat :=
  imageExts.findSome? fun e =>
    if e.isPrefixOf l then (matchPipeClose (l.drop e.length)).map (fun n => e.length + n)
    else none

/-- Match the full image pattern at the head of `l`; returns the length of
the matched span. -/
def matchImageAt (l : List Char) : Option Nat :=
  match l with
  | '!' :: '[' :: '[' :: t =>
    let m := (t.takeWhile (fun c => c != '|' && c != ']')).length
    let ks := ((List.range m).map (fun i => i + 1)).reverse
    (ks.findSome? fun k =>
      if t.get? k = some '.' then
        (matchExtClose (t.drop (k + 1))).map (fun n => k + 1 + n)
      else none).map (fun n => n + 3)
  | _ => none

def imagePlaceholder : List Char := "*__[image_placeholder]__*".toList

/-- The `re.sub` scan for the image pattern: leftmost non-overlapping matches,
each replaced by the placeholder. -/
def subImagesAux : Nat → List Char → List Char
  | 0, l => l
  | _ + 1, [] => []
  | fuel + 1, c :: cs =>
    match matchImageAt (c :: cs) with
    | some n => imagePlaceholder ++ subImagesAux fuel ((c :: cs).drop n)
    | none => c :: subImagesAux fuel cs

/-- Embedding of `AnkiHelper.extract_and_replace_images`. -/
def extract_and_replace_images (staged_content : String) : String :=
  String.mk (subImagesAux staged_content.toList.length staged_content.toList)

example : extract_and_replace_images "a ![[diagram.png]] b" =
    "a *__[image_placeholder]__* b" := by decide
example : extract_and_replace_images "![[pic.jpeg|alias]]x" =
    "*__[image_placeholder]__*x" := by decide
example : extract_and_replace_images "![[doc.pdf]]" = "![[doc.pdf]]" := by decide
example : extract_and_replace_images "![[a.png.png]]" =
    "*__[image_placeholder]__*" := by decide

/-! ## Cross-reference rewriting (`extract_and_replace_obsidian_links`)

Pattern `\[\[([^\]]+)\]\]`: the group is a nonempty run of non-`]`
characters delimited by `[[` and `]]`.  Each match is replaced by
`<ins>alias</ins>` (the alias defaults to the pipe-stripped target), and
the trimmed, pipe-stripped target is reported as a discovered identifier.
After the substitution the content is truncated at the first occurrence
of `"\n---\n"` (Python `content.split('\n---\n', 1)[0]`). -/

/-- Match `\[\[([^\]]+)\]\]` at the head of `l`; returns the captured group
and the length of the matched span. -/
def matchLinkAt (l : List Char) : Option (List Char × Nat) :=
  match l with
  | '[' :: '[' :: t =>
    let r := t.takeWhile (fun c => c != ']')
    if r.isEmpty then none
    else
      match t.drop r.length with
      | ']' :: ']' :: _ => some (r, 2 + r.length + 2)
      | _ => none
  | _ => none

/-- The helper applied to each match (`_extract_and_replace_helper`):
`full.split('|')`, the target is `parts[0].strip()`, the alias is
`parts[1].strip()` when a pipe is present, else the target.  Returns the
replacement text and the discovered identifier. -/
def linkReplacement (grp : List Char) : List Char × String :=
  let part0 := grp.takeWhile (fun c => c != '|')
  let rest := grp.drop part0.length
  let cleaned := stripL part0
  let aliasTxt :=
    if rest.isEmpty then cleaned
    else stripL ((rest.drop 1).takeWhile (fun c => c != '|'))
  ("<ins>".toList ++ aliasTxt ++ "</ins>".toList, String.mk cleaned)

/-- The `re.sub` scan for the link pattern, also collecting the discovered
identifiers in match order. -/
def subLinksAux : Nat → List Char → List Char × List String
  | 0, l => (l, [])
  | _ + 1, [] => ([], [])
  | fuel + 1, c :: cs =>
    match matchLinkAt (c :: cs) with
    | some (grp, n) =>
      let rc := linkReplacement grp
      let rest := subLinksAux fuel ((c :: cs).drop n)
      (rc.1 ++ rest.1, rc.2 :: rest.2)
    | none =>
      let rest := subLinksAux fuel cs
      (c :: rest.1, rest.2)

/-- The separator of the trailing truncation step, `"\n---\n"`. -/
def sepMark : List Char := ['\n', '-', '-', '-', '\n']

/-- Python `content.split('\n---\n', 1)[0]`: everything before the first
occurrence of the separator (the whole content when absent). -/
def truncAtSep : List Char → List Char
  | [] => []
  | c :: cs => if sepMark.isPrefixOf (c :: cs) then [] else c :: truncAtSep cs

/-- Embedding of `AnkiHelper.extract_and_replace_obsidian_links`: returns the
rewritten-and-truncated content together with the identifiers reported to
`update_md_files_trackers`, in report order.  (The source reports each
identifier as a side effect during the substitution; the embedding returns
them explicitly and the caller folds them into the tracker state.) -/
def extract_and_replace_obsidian_links (content : String) : String × List String :=
  let r := subLinksAux content.toList.length content.toList
  (String.mk (truncAtSep r.1), r.2)

example : extract_and_replace_obsidian_links "see [[Other Note|See this]] now" =
    ("see <ins>See this</ins> now", ["Other Note"]) := by decide
example : extract_and_replace_obsidian_links "[[A]] x [[ B ]]" =
    ("<ins>A</ins> x <ins>B</ins>", ["A", "B"]) := by decide
example : extract_and_replace_obsidian_links "a\n---\nb [[C]]" =
    ("a", ["C"]) := by decide
example : extract_and_replace_obsidian_links "plain" = ("plain", []) := by decide

/-- The content has an image-pattern match at some position. -/
def containsImageRef : List Char → Bool
  | [] => false
  | c :: cs => (matchImageAt (c :: cs)).isSome || containsImageRef cs

/-- The content has a cross-reference match at some position. -/
def containsLinkRef : List Char → Bool
  | [] => false
  | c :: cs => (matchLinkAt (c :: cs)).isSome || containsLinkRef cs

/-- The content contains the truncation separator `"\n---\n"`. -/
def containsSepMark : List Char → Bool
  | [] => false
  | c :: cs => sepMark.isPrefixOf (c :: cs) || containsSepMark cs

/-! ## Frontmatter splitting (`separate_frontmatter`) -/

/-- Metadata: a mapping from string keys to ordered sequences of strings
(spec section 3).  Represented as an association list; lookup takes the
first binding. -/
abbrev Metadata := List (String × List String)

/-- The opening metadata delimiter, a `---` line at the very start. -/
def openingDelim : List Char := ['-', '-', '-', '\n']

/-- Scan for the closing delimiter `"\n---\n"` (or a final `"\n---"`);
returns the block before it and the content after it. -/
def findClose : Nat → List Char → Option (List Char × List Char)
  | 0, _ => none
  | _ + 1, [] => none
  | fuel + 1, c :: cs =>
    if sepMark.isPrefixOf (c :: cs) then some ([], (c :: cs).drop 5)
    else if c :: cs = ['\n', '-', '-', '-'] then some ([], [])
    else
      match findClose fuel cs with
      | some p => some (c :: p.1, p.2)
      | none => none

/-- Parse one metadata value: a bracketed `[a, b]` list splits on commas,
anything else is a singleton; entries are stripped. -/
def parseValue (v : List Char) : List String :=
  let v := stripL v
  match v with
  | '[' :: rest =>
    if rest ≠ [] ∧ rest.getLast? = some ']' then
      ((rest.take (rest.length - 1)).splitOn ',').map (fun p => String.mk (stripL p))
    else [String.mk v]
  | _ => [String.mk v]

/-- Parse one metadata line `key: value`; lines without a colon are
skipped. -/
def parseLine (ln : List Char) : Option (String × List String) :=
  let k := ln.takeWhile (fun c => c != ':')
  match ln.drop k.length with
  | ':' :: rest => some (String.mk (stripL k), parseValue rest)
  | _ => none

/-- Parse the delimited metadata block line by line. -/
def parseMetaBlock (b : List Char) : Metadata :=
  (b.splitOn '\n').filterMap parseLine

/-- Modelled from the spec: `AnkiHelper.separate_frontmatter` delegates to
the third-party `frontmatter.parse` (python-frontmatter), whose code is not
part of this repository.  Per the spec (sections 4.1 and 8): if the text
opens with a delimited metadata block, the block is parsed into a mapping
and the remainder is the content block; malformed delimiters (an opening
with no closing) fall back to empty metadata with the content returned
unchanged; when no metadata delimiter is present the content block equals
the input. -/
def separate_frontmatter (content : String) : Metadata × String :=
  if openingDelim.isPrefixOf content.toList then
    match findClose content.toList.length (content.toList.drop 4) with
    | some p => (parseMetaBlock p.1, String.mk p.2)
    | none => ([], content)
  else ([], content)

/-- Embedding of `AnkiHelper.extract_tags_frontmatter`:
`frontmatter_parsed['tags'] if 'tags' in frontmatter_parsed else None`. -/
def extract_tags_frontmatter (frontmatter_parsed : Metadata) : Option (List String) :=
  frontmatter_parsed.lookup "tags"

example : separate_frontmatter "no meta" = ([], "no meta") := by decide
example : separate_frontmatter "---\ntags: [a, b]\n---\nbody" =
    ([("tags", ["a", "b"])], "body") := by decide
example : separate_frontmatter "---\nbroken" = ([], "---\nbroken") := by decide
example : extract_tags_frontmatter [("tags", ["x"])] = some ["x"] := by decide
example : extract_tags_frontmatter [("title", ["x"])] = none := by decide

/-! ## Card synthesis (`Card`, `create_card`) -/

/-- Embedding of the `Card` dataclass.  Python's `tags` is a `set[str]`;
the embedding keeps it as an insertion-ordered duplicate-free list, which
preserves membership and the payload's element set. -/
structure Card where
  front : String := ""
  back : String := ""
  frontmatter : Metadata := []
  staged_content : String := ""
  should_skip : Bool := false
  tags : List String := []
  deriving DecidableEq, Repr

/-- Python `set.update`: add each element not already present. -/
def setUnion (s : List String) (new : List String) : List String :=
  new.foldl (fun acc t => if acc.contains t then acc else acc ++ [t]) s

/-- The reserved skip tag (`AnkiHelper.not_included_tag`). -/
def not_included_tag : String := "not_included"

/-- The fixed skip-notice body written by `create_card`. -/
def skip_back : String := "This note is skipped due to the 'not_included' tag."

/-- The line-break replacement done by `md_to_html_parser` before handing
the text to the external `markdown` renderer. -/
def replaceNewlines (s : String) : String :=
  String.mk (s.toList.flatMap (fun c => if c == '\n' then "<br>".toList else [c]))

/-- Embedding of the markdown-to-HTML helper of `AnkiHelper`: the newline
fixup composed with the external `markdown.markdown` renderer, which is
out of scope per the spec and is threaded through as the parameter
`render`. -/
def md_to_html (render : String → String) (md_content : String) : String :=
  render (replaceNewlines md_content)

/-- The TagSet computed by `create_card` before the skip decision: the
frontmatter channel (when present) unioned with the inline-marker
channel, both over the content block. -/
def cardTags (fm : Metadata) (staged : String) : List String :=
  let t1 :=
    match extract_tags_frontmatter fm with
    | some ts => setUnion [] ts
    | none => []
  setUnion t1 (extract_tags_raw_content staged)

/-- Embedding of `AnkiHelper.create_card`.  Returns the card together with
the identifiers reported to `update_md_files_trackers` during the link
pass (empty on the skip path, which returns before any rewriting). -/
def create_card (render : String → String) (card_pfx : String)
    (filename : String) (content : String) : Card × List String :=
  let fs := separate_frontmatter content
  let tags := cardTags fs.1 fs.2
  if tags.contains not_included_tag then
    ({front := card_pfx ++ filename, back := skip_back, frontmatter := fs.1,
      staged_content := fs.2, should_skip := true, tags := tags}, [])
  else
    let staged2 := extract_and_replace_images fs.2
    let sd := extract_and_replace_obsidian_links staged2
    ({front := card_pfx ++ String.mk (pySplitextL filename.toList).1,
      back := md_to_html render sd.1, frontmatter := fs.1,
      staged_content := sd.1, should_skip := false, tags := tags}, sd.2)

example :
    create_card (fun s => s) "" "note" "#todo [[Other Note|See this]] ![[d.png]]" =
    ({front := "note", back := "#todo <ins>See this</ins> *__[image_placeholder]__*",
      staged_content := "#todo <ins>See this</ins> *__[image_placeholder]__*",
      should_skip := false, tags := ["todo"],
      frontmatter := []} , ["Other Note"]) := by decide

example :
    create_card (fun s => s) "p" "note.md" "---\ntags: [not_included]\n---\nbody" =
    ({front := "pnote.md", back := skip_back, staged_content := "body",
      should_skip := true, tags := ["not_included"],
      frontmatter := [("tags", ["not_included"])]}, []) := by decide

/-! ## Store interaction (`check_card_existence`, `post_card_to_deck_v2`) -/

/-- Body of an AnkiConnect `findNotes` response: an optional error string
and the list of note ids (Python ints; JSON note ids). -/
structure FindResult where
  error : Option String := none
  result : List Nat := []
  deriving DecidableEq, Repr

/-- Outcome of the `findNotes` round trip: the request raises
(`requests` exception) or a response body arrives. -/
inductive FindResponse where
  | raise : FindResponse
  | resp : FindResult → FindResponse
  deriving DecidableEq, Repr

/-- Python truthiness of `result.get('error')`: a missing/None error and
the empty string are falsy. -/
def pyTruthyStr : Option String → Bool
  | none => false
  | some s => s ≠ ""

/-- The `findNotes` query built by `check_card_existence`. -/
def buildQuery (deck front : String) : String :=
  "deck:" ++ deck ++ " front:\"" ++ front ++ "\""

/-- Embedding of `AnkiHelper.check_card_existence`: a truthy error in the
response raises, the exception is caught and `None` is returned; a raised
request is likewise caught; a truthy (nonempty) result list yields its
first element (the `case 1` and the warn-and-take-first `case _` agree);
otherwise `None`. -/
def check_card_existence (deck : String) (findR : String → FindResponse)
    (front : String) : Option Nat :=
  match findR (buildQuery deck front) with
  | .raise => none
  | .resp r =>
    if pyTruthyStr r.error then none
    else
      match r.result with
      | [] => none
      | x :: _ => some x

/-- Fields of the note payload; `Front` is optional because the update
path deletes it (`del note_payload_field['fields']['Front']`). -/
structure NoteFields where
  Front : Option String := none
  Back : String := ""
  deriving DecidableEq, Repr

structure NotePayload where
  deckName : String := ""
  modelName : String := "Basic"
  fields : NoteFields := {}
  tags : List String := []
  id : Option Nat := none
  deriving DecidableEq, Repr

structure Payload where
  action : String := ""
  version : Nat := 6
  note : NotePayload := {}
  deriving DecidableEq, Repr

/-- Outcome of the add/update round trip: raise, or a response body whose
only relevant field is the optional error string. -/
inductive PostResponse where
  | raise : PostResponse
  | resp : Option String → PostResponse
  deriving DecidableEq, Repr

/-- The literal duplicate-error string recognized by the source. -/
def duplicate_error : String := "cannot create note because it is a duplicate"

/-- A call made to the external store, in order. -/
inductive StoreCall where
  | findNotes : String → StoreCall
  | post : Payload → StoreCall
  deriving DecidableEq, Repr

/-- Result of `post_card_to_deck_v2`: the returned status string, the
payload sent by the final `requests.post`, and the store calls made in
order. -/
structure PostOutcome where
  status : String
  payload : Payload
  calls : List StoreCall
  deriving DecidableEq, Repr

/-- Embedding of `AnkiHelper.post_card_to_deck_v2`.  With `upsert` on, the
existence lookup runs first; a Python-truthy (nonzero) id switches the
action to `updateNote`, records the id and deletes the `Front` field.
The response is then classified: truthy error equal to the duplicate
string is SKIPPED, any other truthy error is FAILED, a raised request is
FAILED, anything else is SUCCESS. -/
def post_card_to_deck_v2 (upsert : Bool) (deck : String)
    (findR : String → FindResponse) (postR : Payload → PostResponse)
    (card : Card) : PostOutcome :=
  let base : NotePayload :=
    {deckName := deck, modelName := "Basic",
     fields := {Front := some card.front, Back := card.back}, tags := card.tags}
  let step :=
    if upsert then
      let eid := check_card_existence deck findR card.front
      let note :=
        match eid with
        | some n =>
          if n ≠ 0 then
            ("updateNote",
             {base with id := some n, fields := {base.fields with Front := none}})
          else ("addNote", base)
        | none => ("addNote", base)
      (note, [StoreCall.findNotes (buildQuery deck card.front)])
    else (("addNote", base), [])
  let payload : Payload := {action := step.1.1, version := 6, note := step.1.2}
  let status :=
    match postR payload with
    | .raise => "FAILED"
    | .resp e =>
      if pyTruthyStr e then
        if e = some duplicate_error then "SKIPPED" else "FAILED"
      else "SUCCESS"
  {status := status, payload := payload,
   calls := step.2 ++ [StoreCall.post payload]}

/-- Embedding of `AnkiHelper.process_card_submission`: skip-marked cards
and the `skip_submission` feature flag short-circuit to SKIPPED with no
store call. -/
def process_card_submission (skip_submission upsert : Bool) (deck : String)
    (findR : String → FindResponse) (postR : Payload → PostResponse)
    (card : Card) : String × List StoreCall :=
  if card.should_skip then ("SKIPPED", [])
  else if skip_submission then ("SKIPPED", [])
  else
    let out := post_card_to_deck_v2 upsert deck findR postR card
    (out.status, out.calls)

/-! ## Traversal state and run controller -/

/-- Embedding of the mutable `AnkiHelper` traversal state and tally:
`md_files_tracked` (a Python set, kept here as an insertion-ordered list
with set semantics), the frontier lists and the three counters. -/
structure RunState where
  md_files_tracked : List String := []
  new_md_files : List String := []
  next_md_files : List String := []
  success_count : Nat := 0
  failed_count : Nat := 0
  skipped_count : Nat := 0
  deriving DecidableEq, Repr

/-- Embedding of `AnkiHelper.update_md_files_trackers`: a no-op in `flat`
mode; otherwise an untracked filename is added to the tracked set and
appended to `next_md_files`, and an already-tracked filename changes
nothing. -/
def update_md_files_trackers (mode : String) (st : RunState)
    (filename : String) : RunState :=
  if mode = "flat" then st
  else if st.md_files_tracked.contains filename then st
  else
    {st with md_files_tracked := st.md_files_tracked ++ [filename],
             next_md_files := st.next_md_files ++ [filename]}

/-- Error raised by note resolution; the source's `IOError` branch (a
listing entry that is not a regular file) is outside the embedded
filesystem model, in which every listing entry carries its content. -/
inductive ReadErr where
  | fileNotFound : ReadErr
  deriving DecidableEq, Repr

instance : DecidableEq (Except ReadErr String) := fun a b =>
  match a, b with
  | Except.ok x, Except.ok y =>
    if h : x = y then Decidable.isTrue (by rw [h])
    else Decidable.isFalse (by simp [h])
  | Except.error x, Except.error y =>
    Decidable.isTrue (by cases x; cases y; rfl)
  | Except.ok _, Except.error _ => Decidable.isFalse (by simp)
  | Except.error _, Except.ok _ => Decidable.isFalse (by simp)

/-- The per-file acceptance test of `read_file_case_insensitive_simple`:
the listing entry splits into a name and a `.md`/`.markdown` extension and
its lowercased name equals the lowercased identifier (taken verbatim,
extension included). -/
def fileMatches (filename fname : String) : Bool :=
  let se := pySplitextL fname.toList
  (String.mk se.2 == ".md" || String.mk se.2 == ".markdown") &&
    pyLower (String.mk se.1) == pyLower filename

/-- Embedding of `AnkiHelper.read_file_case_insensitive_simple` over a
directory listing given as (filename, content) pairs: the first matching
entry's content is returned; with no match a FileNotFoundError is
raised. -/
def read_file_case_insensitive_simple (filename : String)
    (files : List (String × String)) : Except ReadErr String :=
  match files.find? (fun fc => fileMatches filename fc.1) with
  | some fc => Except.ok fc.2
  | none => Except.error ReadErr.fileNotFound

/-- The environment of one run: the folder listing and configuration plus
the three external collaborators (markdown renderer and the store's
deterministic responses to `findNotes` and note-posting calls). -/
structure RunEnv where
  folder_files : List (String × String) := []
  deck_name : String := "Default"
  card_pfx : String := ""
  mode : String := "tree_from_flat_folder"
  upsert : Bool := false
  skip_submission : Bool := false
  render : String → String := fun s => s
  findR : String → FindResponse := fun _ => FindResponse.raise
  postR : Payload → PostResponse := fun _ => PostResponse.raise

/-- The tally `match` at the end of the per-file loop body in
`AnkiHelper.run`: exactly the matching counter is incremented. -/
def tallyStep (st : RunState) (response : String) : RunState :=
  if response = "SUCCESS" then {st with success_count := st.success_count + 1}
  else if response = "FAILED" then {st with failed_count := st.failed_count + 1}
  else if response = "SKIPPED" then {st with skipped_count := st.skipped_count + 1}
  else st

/-- One iteration of the inner `for filename in self.new_md_files` loop of
`AnkiHelper.run`: resolve the file (a FileNotFoundError counts as failed
and the loop continues), build the card (reporting each discovered link
to the tracker, in order), submit, and tally the response. -/
def processFile (env : RunEnv) (st : RunState) (filename : String) : RunState :=
  match read_file_case_insensitive_simple filename env.folder_files with
  | Except.error _ => {st with failed_count := st.failed_count + 1}
  | Except.ok content =>
    let cd := create_card env.render env.card_pfx filename content
    let st1 := cd.2.foldl (update_md_files_trackers env.mode) st
    let pr := process_card_submission env.skip_submission env.upsert env.deck_name
        env.findR env.postR cd.1
    tallyStep st1 pr.1

/-- One iteration of the outer `while self.new_md_files` loop: reset
`next_md_files`, process the current frontier, then promote the collected
`next_md_files` to `new_md_files`. -/
def runLevel (env : RunEnv) (st : RunState) : RunState :=
  let st1 := {st with next_md_files := []}
  let st2 := st1.new_md_files.foldl (processFile env) st1
  {st2 with new_md_files := st2.next_md_files}

/-- The `while self.new_md_files:` loop of `AnkiHelper.run`, with an
explicit bound on the number of iterations; `none` means the bound was
reached with a nonempty frontier still pending. -/
def runAux (env : RunEnv) : Nat → RunState → Option RunState
  | 0, st => if st.new_md_files = [] then some st else none
  | fuel + 1, st =>
    if st.new_md_files = [] then some st
    else runAux env fuel (runLevel env st)

/-- The discoveries contributed by one identifier in a given environment:
none when the file does not resolve, else the identifiers reported while
building its card. -/
def discoveriesOfFile (env : RunEnv) (filename : String) : List String :=
  match read_file_case_insensitive_simple filename env.folder_files with
  | Except.ok content => (create_card env.render env.card_pfx filename content).2
  | Except.error _ => []

/-- The initial traversal state built by `AnkiHelper.__init__` from the
seed list. -/
def initState (mode : String) (initial_md_files : List String) : RunState :=
  let st := initial_md_files.foldl (update_md_files_trackers mode) {}
  {st with new_md_files := st.next_md_files}

/-- Closure of a candidate identifier universe under link discovery. -/
def ClosedUnder (env : RunEnv) (U : List String) : Prop :=
  ∀ f ∈ U, ∀ d ∈ discoveriesOfFile env f, d ∈ U

/-- The invariant maintained across levels of the run loop. -/
def RunInv (U : List String) (st : RunState) : Prop :=
  (∀ x ∈ st.md_files_tracked, x ∈ U) ∧
  (∀ x ∈ st.new_md_files, x ∈ st.md_files_tracked)

/-! ## Lemmas about the tracker -/

theorem contains_iff_mem (l : List String) (a : String) :
    l.contains a = true ↔ a ∈ l := by
  simp [List.contains, List.elem_iff]

theorem upd_noop (mode : String) (st : RunState) (f : String)
    (h : f ∈ st.md_files_tracked) :
    update_md_files_trackers mode st f = st := by
  unfold update_md_files_trackers
  split_ifs with h1 h2
  · rfl
  · rfl
  · exact absurd ((contains_iff_mem _ _).mpr h) h2

theorem upd_tracked_mono (mode : String) (st : RunState) (f x : String)
    (h : x ∈ st.md_files_tracked) :
    x ∈ (update_md_files_trackers mode st f).md_files_tracked := by
  unfold update_md_files_trackers
  split_ifs <;> simp [h]

theorem upd_tracked_sub (mode : String) (st : RunState) (f x : String)
    (h : x ∈ (update_md_files_trackers mode st f).md_files_tracked) :
    x ∈ st.md_files_tracked ∨ x = f := by
  unfold update_md_files_trackers at h
  split_ifs at h <;> simp_all

theorem upd_next_mono (mode : String) (st : RunState) (f x : String)
    (h : x ∈ st.next_md_files) :
    x ∈ (update_md_files_trackers mode st f).next_md_files := by
  unfold update_md_files_trackers
  split_ifs <;> simp [h]

theorem upd_next_sub (mode : String) (st : RunState) (f x : String)
    (h : x ∈ (update_md_files_trackers mode st f).next_md_files) :
    x ∈ st.next_md_files ∨ (x = f ∧ f ∉ st.md_files_tracked) := by
  unfold update_md_files_trackers at h
  split_ifs at h with h1 h2
  · exact Or.inl h
  · exact Or.inl h
  · simp only [List.mem_append, List.mem_singleton] at h
    rcases h with h | h
    · exact Or.inl h
    · exact Or.inr ⟨h, fun hm => h2 ((contains_iff_mem _ _).mpr hm)⟩

theorem upd_next_tracked (mode : String) (st : RunState) (f : String)
    (h : ∀ y ∈ st.next_md_files, y ∈ st.md_files_tracked) :
    ∀ y ∈ (update_md_files_trackers mode st f).next_md_files,
      y ∈ (update_md_files_trackers mode st f).md_files_tracked := by
  intro y hy
  unfold update_md_files_trackers at hy ⊢
  split_ifs at hy ⊢ <;> simp_all
  rcases hy with hy | hy
  · exact Or.inl (h y hy)
  · exact Or.inr hy

theorem upd_counters (mode : String) (st : RunState) (f : String) :
    (update_md_files_trackers mode st f).success_count = st.success_count ∧
    (update_md_files_trackers mode st f).failed_count = st.failed_count ∧
    (update_md_files_trackers mode st f).skipped_count = st.skipped_count ∧
    (update_md_files_trackers mode st f).new_md_files = st.new_md_files := by
  unfold update_md_files_trackers
  split_ifs <;> simp

theorem upd_nodup_next (mode : String) (st : RunState) (f : String)
    (hnd : st.next_md_files.Nodup)
    (hsub : ∀ y ∈ st.next_md_files, y ∈ st.md_files_tracked) :
    (update_md_files_trackers mode st f).next_md_files.Nodup := by
  unfold update_md_files_trackers
  split_ifs with h1 h2
  · exact hnd
  · exact hnd
  · simp only [List.nodup_append, List.nodup_singleton, true_and]
    refine ⟨hnd, ?_⟩
    intro x hx hx1
    simp only [List.mem_singleton] at hx1
    subst hx1
    exact h2 ((contains_iff_mem _ _).mpr (hsub x hx))

theorem upd_nodup_tracked (mode : String) (st : RunState) (f : String)
    (hnd : st.md_files_tracked.Nodup) :
    (update_md_files_trackers mode st f).md_files_tracked.Nodup := by
  unfold update_md_files_trackers
  split_ifs with h1 h2
  · exact hnd
  · exact hnd
  · simp only [List.nodup_append, List.nodup_singleton, true_and]
    refine ⟨hnd, ?_⟩
    intro x hx hx1
    simp only [List.mem_singleton] at hx1
    subst hx1
    exact h2 ((contains_iff_mem _ _).mpr hx)

/-! ## Lemmas about folding a list of reports into the tracker -/

theorem foldUpd_tracked_mono (mode : String) (ds : List String) (st : RunState)
    (x : String) (h : x ∈ st.md_files_tracked) :
    x ∈ (ds.foldl (update_md_files_trackers mode) st).md_files_tracked := by
  induction ds generalizing st with
  | nil => exact h
  | cons d ds ih => exact ih _ (upd_tracked_mono mode st d x h)

theorem foldUpd_tracked_sub (mode : String) (ds : List String) (st : RunState)
    (x : String)
    (h : x ∈ (ds.foldl (update_md_files_trackers mode) st).md_files_tracked) :
    x ∈ st.md_files_tracked ∨ x ∈ ds := by
  induction ds generalizing st with
  | nil => exact Or.inl h
  | cons d ds ih =>
    rcases ih _ h with h1 | h1
    · rcases upd_tracked_sub mode st d x h1 with h2 | h2
      · exact Or.inl h2
      · exact Or.inr (by simp [h2])
    · exact Or.inr (by simp [h1])

theorem foldUpd_next_mono (mode : String) (ds : List String) (st : RunState)
    (x : String) (h : x ∈ st.next_md_files) :
    x ∈ (ds.foldl (update_md_files_trackers mode) st).next_md_files := by
  induction ds generalizing st with
  | nil => exact h
  | cons d ds ih => exact ih _ (upd_next_mono mode st d x h)

theorem foldUpd_next_sub (mode : String) (ds : List String) (st : RunState)
    (x : String)
    (h : x ∈ (ds.foldl (update_md_files_trackers mode) st).next_md_files) :
    x ∈ st.next_md_files ∨ x ∉ st.md_files_tracked := by
  induction ds generalizing st with
  | nil => exact Or.inl h
  | cons d ds ih =>
    rcases ih _ h with h1 | h1
    · rcases upd_next_sub mode st d x h1 with h2 | h2
      · exact Or.inl h2
      · exact Or.inr (h2.1 ▸ h2.2)
    · exact Or.inr (fun hm => h1 (upd_tracked_mono mode st d x hm))

theorem foldUpd_next_tracked (mode : String) (ds : List String) (st : RunState)
    (h : ∀ y ∈ st.next_md_files, y ∈ st.md_files_tracked) :
    ∀ y ∈ (ds.foldl (update_md_files_trackers mode) st).next_md_files,
      y ∈ (ds.foldl (update_md_files_trackers mode) st).md_files_tracked := by
  induction ds generalizing st with
  | nil => exact h
  | cons d ds ih => exact ih _ (upd_next_tracked mode st d h)

theorem foldUpd_counters (mode : String) (ds : List String) (st : RunState) :
    (ds.foldl (update_md_files_trackers mode) st).success_count = st.success_count ∧
    (ds.foldl (update_md_files_trackers mode) st).failed_count = st.failed_count ∧
    (ds.foldl (update_md_files_trackers mode) st).skipped_count = st.skipped_count ∧
    (ds.foldl (update_md_files_trackers mode) st).new_md_files = st.new_md_files := by
  induction ds generalizing st with
  | nil => exact ⟨rfl, rfl, rfl, rfl⟩
  | cons d ds ih =>
    have hu := upd_counters mode st d
    have hi := ih (update_md_files_trackers mode st d)
    exact ⟨hi.1.trans hu.1, hi.2.1.trans hu.2.1, hi.2.2.1.trans hu.2.2.1,
      hi.2.2.2.trans hu.2.2.2⟩

theorem foldUpd_nodup_next (mode : String) (ds : List String) (st : RunState)
    (hnd : st.next_md_files.Nodup)
    (hsub : ∀ y ∈ st.next_md_files, y ∈ st.md_files_tracked) :
    (ds.foldl (update_md_files_trackers mode) st).next_md_files.Nodup := by
  induction ds generalizing st with
  | nil => exact hnd
  | cons d ds ih =>
    exact ih _ (upd_nodup_next mode st d hnd hsub) (upd_next_tracked mode st d hsub)

theorem foldUpd_nodup_tracked (mode : String) (ds : List String) (st : RunState)
    (hnd : st.md_files_tracked.Nodup) :
    (ds.foldl (update_md_files_trackers mode) st).md_files_tracked.Nodup := by
  induction ds generalizing st with
  | nil => exact hnd
  | cons d ds ih => exact ih _ (upd_nodup_tracked mode st d hnd)

/-! ## Lemmas about one per-file step of the run -/

theorem tally_fields (st : RunState) (r : String) :
    (tallyStep st r).md_files_tracked = st.md_files_tracked ∧
    (tallyStep st r).next_md_files = st.next_md_files ∧
    (tallyStep st r).new_md_files = st.new_md_files := by
  unfold tallyStep
  split_ifs <;> simp

theorem processFile_eq_error (env : RunEnv) (st : RunState) (f : String)
    (e : ReadErr)
    (hr : read_file_case_insensitive_simple f env.folder_files = Except.error e) :
    processFile env st f = {st with failed_count := st.failed_count + 1} := by
  unfold processFile
  rw [hr]

theorem processFile_eq_ok (env : RunEnv) (st : RunState) (f content : String)
    (hr : read_file_case_insensitive_simple f env.folder_files = Except.ok content) :
    processFile env st f =
      tallyStep
        ((create_card env.render env.card_pfx f content).2.foldl
          (update_md_files_trackers env.mode) st)
        (process_card_submission env.skip_submission env.upsert env.deck_name
          env.findR env.postR (create_card env.render env.card_pfx f content).1).1 := by
  unfold processFile
  rw [hr]

theorem processFile_tracked_mono (env : RunEnv) (st : RunState) (f x : String)
    (h : x ∈ st.md_files_tracked) :
    x ∈ (processFile env st f).md_files_tracked := by
  cases hr : read_file_case_insensitive_simple f env.folder_files with
  | error e => rw [processFile_eq_error env st f e hr]; exact h
  | ok content =>
    rw [processFile_eq_ok env st f content hr, (tally_fields _ _).1]
    exact foldUpd_tracked_mono _ _ _ _ h

theorem processFile_tracked_sub (env : RunEnv) (st : RunState) (f x : String)
    (h : x ∈ (processFile env st f).md_files_tracked) :
    x ∈ st.md_files_tracked ∨ x ∈ discoveriesOfFile env f := by
  cases hr : read_file_case_insensitive_simple f env.folder_files with
  | error e =>
    rw [processFile_eq_error env st f e hr] at h
    exact Or.inl h
  | ok content =>
    rw [processFile_eq_ok env st f content hr, (tally_fields _ _).1] at h
    have hd : discoveriesOfFile env f =
        (create_card env.render env.card_pfx f content).2 := by
      unfold discoveriesOfFile
      rw [hr]
    rw [hd]
    exact foldUpd_tracked_sub env.mode _ st x h

theorem processFile_next_mono (env : RunEnv) (st : RunState) (f x : String)
    (h : x ∈ st.next_md_files) :
    x ∈ (processFile env st f).next_md_files := by
  cases hr : read_file_case_insensitive_simple f env.folder_files with
  | error e => rw [processFile_eq_error env st f e hr]; exact h
  | ok content =>
    rw [processFile_eq_ok env st f content hr, (tally_fields _ _).2.1]
    exact foldUpd_next_mono _ _ _ _ h

theorem processFile_next_sub (env : RunEnv) (st : RunState) (f x : String)
    (h : x ∈ (processFile env st f).next_md_files) :
    x ∈ st.next_md_files ∨ x ∉ st.md_files_tracked := by
  cases hr : read_file_case_insensitive_simple f env.folder_files with
  | error e =>
    rw [processFile_eq_error env st f e hr] at h
    exact Or.inl h
  | ok content =>
    rw [processFile_eq_ok env st f content hr, (tally_fields _ _).2.1] at h
    exact foldUpd_next_sub env.mode _ st x h

theorem processFile_next_tracked (env : RunEnv) (st : RunState) (f : String)
    (h : ∀ y ∈ st.next_md_files, y ∈ st.md_files_tracked) :
    ∀ y ∈ (processFile env st f).next_md_files,
      y ∈ (processFile env st f).md_files_tracked := by
  intro y hy
  cases hr : read_file_case_insensitive_simple f env.folder_files with
  | error e =>
    rw [processFile_eq_error env st f e hr] at hy ⊢
    exact h y hy
  | ok content =>
    rw [processFile_eq_ok env st f content hr, (tally_fields _ _).2.1] at hy
    rw [processFile_eq_ok env st f content hr, (tally_fields _ _).1]
    exact foldUpd_next_tracked env.mode _ st h y hy

theorem processFile_new (env : RunEnv) (st : RunState) (f : String) :
    (processFile env st f).new_md_files = st.new_md_files := by
  cases hr : read_file_case_insensitive_simple f env.folder_files with
  | error e => rw [processFile_eq_error env st f e hr]
  | ok content =>
    rw [processFile_eq_ok env st f content hr, (tally_fields _ _).2.2,
      (foldUpd_counters _ _ _).2.2.2]

/-! ## Lemmas about one level of the run and termination -/

theorem foldPF_tracked_mono (env : RunEnv) (fs : List String) (st : RunState)
    (x : String) (h : x ∈ st.md_files_tracked) :
    x ∈ (fs.foldl (processFile env) st).md_files_tracked := by
  induction fs generalizing st with
  | nil => exact h
  | cons f fs ih => exact ih _ (processFile_tracked_mono env st f x h)

theorem foldPF_tracked_inU (env : RunEnv) (U : List String)
    (hcl : ClosedUnder env U) (fs : List String) (st : RunState)
    (hfs : ∀ f ∈ fs, f ∈ U)
    (htr : ∀ x ∈ st.md_files_tracked, x ∈ U) :
    ∀ x ∈ (fs.foldl (processFile env) st).md_files_tracked, x ∈ U := by
  induction fs generalizing st with
  | nil => exact htr
  | cons f fs ih =>
    refine ih _ (fun g hg => hfs g (by simp [hg])) ?_
    intro x hx
    rcases processFile_tracked_sub env st f x hx with h1 | h1
    · exact htr x h1
    · exact hcl f (hfs f (by simp)) x h1

theorem foldPF_next_sub (env : RunEnv) (fs : List String) (st : RunState)
    (x : String) (h : x ∈ (fs.foldl (processFile env) st).next_md_files) :
    x ∈ st.next_md_files ∨ x ∉ st.md_files_tracked := by
  induction fs generalizing st with
  | nil => exact Or.inl h
  | cons f fs ih =>
    rcases ih _ h with h1 | h1
    · exact processFile_next_sub env st f x h1
    · exact Or.inr (fun hm => h1 (processFile_tracked_mono env st f x hm))

theorem foldPF_next_tracked (env : RunEnv) (fs : List String) (st : RunState)
    (h : ∀ y ∈ st.next_md_files, y ∈ st.md_files_tracked) :
    ∀ y ∈ (fs.foldl (processFile env) st).next_md_files,
      y ∈ (fs.foldl (processFile env) st).md_files_tracked := by
  induction fs generalizing st with
  | nil => exact h
  | cons f fs ih => exact ih _ (processFile_next_tracked env st f h)

theorem runLevel_tracked_mono (env : RunEnv) (st : RunState) (x : String)
    (h : x ∈ st.md_files_tracked) :
    x ∈ (runLevel env st).md_files_tracked := by
  unfold runLevel
  exact foldPF_tracked_mono env _ _ x h

theorem runLevel_inv (env : RunEnv) (U : List String) (hcl : ClosedUnder env U)
    (st : RunState) (hinv : RunInv U st) : RunInv U (runLevel env st) := by
  obtain ⟨htr, hnew⟩ := hinv
  constructor
  · intro x hx
    exact foldPF_tracked_inU env U hcl st.new_md_files
      {st with next_md_files := []} (fun f hf => htr f (hnew f hf)) htr x hx
  · intro x hx
    exact foldPF_next_tracked env st.new_md_files
      {st with next_md_files := []} (by simp) x hx

theorem runLevel_growth (env : RunEnv) (st : RunState)
    (hne : (runLevel env st).new_md_files ≠ []) :
    ∃ x, x ∈ (runLevel env st).md_files_tracked ∧ x ∉ st.md_files_tracked := by
  obtain ⟨x, hx⟩ := List.exists_mem_of_ne_nil _ hne
  refine ⟨x, ?_, ?_⟩
  · exact foldPF_next_tracked env st.new_md_files
      {st with next_md_files := []} (by simp) x hx
  · rcases foldPF_next_sub env st.new_md_files {st with next_md_files := []} x hx
      with h1 | h1
    · exact absurd h1 (by simp)
    · exact fun hm => h1 hm

theorem tracked_card_le (U : List String) (st : RunState)
    (htr : ∀ x ∈ st.md_files_tracked, x ∈ U) :
    st.md_files_tracked.toFinset.card ≤ U.toFinset.card := by
  apply Finset.card_le_card
  intro x hx
  simp only [List.mem_toFinset] at hx ⊢
  exact htr x hx

/-- Fuel-indexed termination: once the measure `|U| - |tracked|` is below
the fuel, the level loop drains within the fuel. -/
theorem runAux_isSome_of_measure (env : RunEnv) (U : List String)
    (hcl : ClosedUnder env U) :
    ∀ fuel : Nat, ∀ st : RunState, RunInv U st →
      U.toFinset.card - st.md_files_tracked.toFinset.card < fuel →
      (runAux env fuel st).isSome := by
  intro fuel
  induction fuel with
  | zero => intro st _ h; omega
  | succ fuel ih =>
    intro st hinv hm
    unfold runAux
    split
    · rfl
    · rename_i hne
      by_cases hne2 : (runLevel env st).new_md_files = []
      · cases fuel with
        | zero => simp [runAux, hne2]
        | succ fuel => simp [runAux, hne2]
      · refine ih _ (runLevel_inv env U hcl st hinv) ?_
        obtain ⟨x, hx1, hx2⟩ := runLevel_growth env st hne2
        have hmono : st.md_files_tracked.toFinset ⊂
            (runLevel env st).md_files_tracked.toFinset := by
          constructor
          · intro y hy
            simp only [List.mem_toFinset] at hy ⊢
            exact runLevel_tracked_mono env st y hy
          · intro hcon
            have := hcon (by simpa [List.mem_toFinset] using hx1)
            simp only [List.mem_toFinset] at this
            exact hx2 this
        have hlt : st.md_files_tracked.toFinset.card <
            (runLevel env st).md_files_tracked.toFinset.card :=
          Finset.card_lt_card hmono
        have hle : (runLevel env st).md_files_tracked.toFinset.card ≤
            U.toFinset.card :=
          tracked_card_le U _ (runLevel_inv env U hcl st hinv).1
        omega

/-! ## No-match predicates and identity lemmas for the rewriter -/

theorem subImagesAux_id (fuel : Nat) (l : List Char)
    (h : containsImageRef l = false) : subImagesAux fuel l = l := by
  induction fuel generalizing l with
  | zero => rfl
  | succ fuel ih =>
    cases l with
    | nil => rfl
    | cons c cs =>
      unfold containsImageRef at h
      simp only [Bool.or_eq_false_iff] at h
      unfold subImagesAux
      cases hm : matchImageAt (c :: cs) with
      | some n => rw [hm] at h; simp at h
      | none => rw [ih cs h.2]

theorem subLinksAux_id (fuel : Nat) (l : List Char)
    (h : containsLinkRef l = false) : subLinksAux fuel l = (l, []) := by
  induction fuel generalizing l with
  | zero => rfl
  | succ fuel ih =>
    cases l with
    | nil => rfl
    | cons c cs =>
      unfold containsLinkRef at h
      simp only [Bool.or_eq_false_iff] at h
      unfold subLinksAux
      cases hm : matchLinkAt (c :: cs) with
      | some p => rw [hm] at h; simp at h
      | none => rw [ih cs h.2]

theorem truncAtSep_id (l : List Char) (h : containsSepMark l = false) :
    truncAtSep l = l := by
  induction l with
  | nil => rfl
  | cons c cs ih =>
    unfold containsSepMark at h
    simp only [Bool.or_eq_false_iff] at h
    unfold truncAtSep
    rw [if_neg (by simp [h.1]), ih h.2]

theorem mk_toList (s : String) : String.mk s.toList = s := rfl

/-! ## Claim theorems -/

/-- C1, counterexample: `"Note"` and `"note"` have equal case-folded,
extension-stripped forms — the same underlying note identifier per the
spec's `NoteIdentifier` equality — yet reporting both to the tracker
appends both to the frontier: deduplication is by exact string, not by the
claimed equality. -/
theorem update_md_files_trackers_casefold_cex :
    pyLower (pySplitext "Note").1 = pyLower (pySplitext "note").1 ∧
    (update_md_files_trackers "tree_from_flat_folder"
      (update_md_files_trackers "tree_from_flat_folder" ({} : RunState) "Note")
      "note").next_md_files = ["Note", "note"] := by decide

/-- C1 (amended): deduplication is by exact string equality of the reported
identifier.  Reporting an already-tracked string is a no-op on the whole
state, and over any sequence of reports the frontier stays duplicate-free,
every frontier entry is tracked, and the tracked set stays duplicate-free
(so each exact identifier string is appended, and hence visited, at most
once). -/
theorem update_md_files_trackers_exact_dedup (mode : String) (st : RunState)
    (f : String) (ids : List String)
    (h1 : st.next_md_files.Nodup)
    (h2 : ∀ x ∈ st.next_md_files, x ∈ st.md_files_tracked)
    (h3 : st.md_files_tracked.Nodup) :
    (f ∈ st.md_files_tracked → update_md_files_trackers mode st f = st) ∧
    (ids.foldl (update_md_files_trackers mode) st).next_md_files.Nodup ∧
    (∀ x ∈ (ids.foldl (update_md_files_trackers mode) st).next_md_files,
      x ∈ (ids.foldl (update_md_files_trackers mode) st).md_files_tracked) ∧
    (ids.foldl (update_md_files_trackers mode) st).md_files_tracked.Nodup :=
  ⟨fun hf => upd_noop mode st f hf,
   foldUpd_nodup_next mode ids st h1 h2,
   foldUpd_next_tracked mode ids st h2,
   foldUpd_nodup_tracked mode ids st h3⟩

theorem update_md_files_trackers_exact_dedup_witness :
    (update_md_files_trackers "tree_from_flat_folder"
      {md_files_tracked := ["a"], new_md_files := ["a"]} "a" =
      {md_files_tracked := ["a"], new_md_files := ["a"]}) ∧
    (["a", "b", "a"].foldl (update_md_files_trackers "tree_from_flat_folder")
      {md_files_tracked := ["a"], new_md_files := ["a"]}).next_md_files.Nodup :=
  ⟨(update_md_files_trackers_exact_dedup "tree_from_flat_folder"
      {md_files_tracked := ["a"], new_md_files := ["a"]} "a" ["a", "b", "a"]
      (by decide) (by decide) (by decide)).1 (by decide),
   (update_md_files_trackers_exact_dedup "tree_from_flat_folder"
      {md_files_tracked := ["a"], new_md_files := ["a"]} "a" ["a", "b", "a"]
      (by decide) (by decide) (by decide)).2.1⟩

/-- C2: for any identifier universe `U` containing the tracked set and
closed under link discovery (in particular the set of identifiers
reachable from the seeds, which is finite when the folder and each note's
reference list are), the level-by-level loop of `run` drains its frontier
within `|U| + 1` iterations — termination even across reference cycles,
with the iteration count bounded by the number of (distinct) reachable
identifiers. -/
theorem run_terminates (env : RunEnv) (U : List String) (st : RunState)
    (hcl : ClosedUnder env U)
    (htr : ∀ x ∈ st.md_files_tracked, x ∈ U)
    (hnew : ∀ x ∈ st.new_md_files, x ∈ st.md_files_tracked) :
    (runAux env (U.length + 1) st).isSome := by
  apply runAux_isSome_of_measure env U hcl (U.length + 1) st ⟨htr, hnew⟩
  have h2 : U.toFinset.card ≤ U.length := U.toFinset_card_le
  omega

theorem run_terminates_witness :
    (runAux {folder_files := [("a.md", "x [[b]]"), ("b.md", "[[a]] y")]} 3
      {md_files_tracked := ["a"], new_md_files := ["a"]}).isSome :=
  run_terminates {folder_files := [("a.md", "x [[b]]"), ("b.md", "[[a]] y")]}
    ["a", "b"] {md_files_tracked := ["a"], new_md_files := ["a"]}
    (by unfold ClosedUnder discoveriesOfFile; decide) (by decide) (by decide)

/-- C3, counterexample: the store answers the lookup with the note id `0`
(a well-formed `findNotes` response `{"result": [0]}`).  The lookup
returns the id, but Python's `if existing_card_id:` is false for `0`, so
the submission is an `addNote` still carrying the Front field — not the
`updateNote` the claim requires whenever the lookup returns an id. -/
theorem post_v2_zero_id_cex :
    check_card_existence "d" (fun _ => FindResponse.resp {result := [0]}) "f" =
      some 0 ∧
    (post_card_to_deck_v2 true "d" (fun _ => FindResponse.resp {result := [0]})
      (fun _ => PostResponse.resp none)
      {front := "f", back := "b"}).payload.action = "addNote" ∧
    (post_card_to_deck_v2 true "d" (fun _ => FindResponse.resp {result := [0]})
      (fun _ => PostResponse.resp none)
      {front := "f", back := "b"}).payload.note.fields.Front = some "f" := by
  decide

/-- C3 (amended): in upsert mode the existence lookup always precedes the
write (the call trace is the `findNotes` query followed by the single
post).  A lookup that returns a Python-truthy (nonzero) id routes to
`updateNote` carrying that id, with the Front field removed and only Back
and tags in the payload; a lookup that returns no id — or the falsy id
`0` — routes to `addNote` carrying the Front field. -/
theorem post_v2_upsert_routing (deck : String) (findR : String → FindResponse)
    (postR : Payload → PostResponse) (card : Card) :
    (∀ n : Nat, check_card_existence deck findR card.front = some n → n ≠ 0 →
      (post_card_to_deck_v2 true deck findR postR card).payload.action = "updateNote" ∧
      (post_card_to_deck_v2 true deck findR postR card).payload.note.id = some n ∧
      (post_card_to_deck_v2 true deck findR postR card).payload.note.fields.Front = none ∧
      (post_card_to_deck_v2 true deck findR postR card).payload.note.fields.Back = card.back ∧
      (post_card_to_deck_v2 true deck findR postR card).payload.note.tags = card.tags) ∧
    ((check_card_existence deck findR card.front = none ∨
      check_card_existence deck findR card.front = some 0) →
      (post_card_to_deck_v2 true deck findR postR card).payload.action = "addNote" ∧
      (post_card_to_deck_v2 true deck findR postR card).payload.note.fields.Front =
        some card.front) ∧
    (post_card_to_deck_v2 true deck findR postR card).calls =
      [StoreCall.findNotes (buildQuery deck card.front),
       StoreCall.post (post_card_to_deck_v2 true deck findR postR card).payload] := by
  unfold post_card_to_deck_v2
  cases hc : check_card_existence deck findR card.front with
  | none => simp [hc]
  | some n =>
    by_cases hn : n = 0
    · subst hn
      simp [hc]
    · simp [hc, hn]

theorem post_v2_upsert_routing_witness :
    (post_card_to_deck_v2 true "d" (fun _ => FindResponse.resp {result := [5]})
      (fun _ => PostResponse.resp none)
      {front := "f", back := "b", tags := ["t"]}).payload.action = "updateNote" ∧
    (post_card_to_deck_v2 true "d" (fun _ => FindResponse.resp {result := [5]})
      (fun _ => PostResponse.resp none)
      {front := "f", back := "b", tags := ["t"]}).payload.note.id = some 5 ∧
    (post_card_to_deck_v2 true "d" (fun _ => FindResponse.resp {result := [5]})
      (fun _ => PostResponse.resp none)
      {front := "f", back := "b", tags := ["t"]}).payload.note.fields.Front = none := by
  have h := post_v2_upsert_routing "d" (fun _ => FindResponse.resp {result := [5]})
    (fun _ => PostResponse.resp none) {front := "f", back := "b", tags := ["t"]}
  exact ⟨(h.1 5 (by decide) (by decide)).1, (h.1 5 (by decide) (by decide)).2.1,
    (h.1 5 (by decide) (by decide)).2.2.1⟩

/-- C4, counterexample: a response carrying the error string `""` — an
error string different from the duplicate string — yields SUCCESS, not
FAILED: Python's `if result.get('error'):` is false for the empty
string. -/
theorem post_v2_empty_error_cex :
    (post_card_to_deck_v2 false "d" (fun _ => FindResponse.raise)
      (fun _ => PostResponse.resp (some "")) {front := "f"}).status = "SUCCESS" ∧
    ("" : String) ≠ duplicate_error := by decide

/-- C4 (amended): a raised request yields FAILED; a response carrying
exactly the duplicate-error string yields SKIPPED; a response carrying any
other nonempty error string yields FAILED (an empty error string is falsy
and is treated as success); and the run's tally step increments exactly
the counter matching the returned status. -/
theorem post_v2_outcomes (upsert : Bool) (deck : String)
    (findR : String → FindResponse) (card : Card) (e : String) (st : RunState)
    (he1 : e ≠ duplicate_error) (he2 : e ≠ "") :
    (post_card_to_deck_v2 upsert deck findR (fun _ => PostResponse.raise)
      card).status = "FAILED" ∧
    (post_card_to_deck_v2 upsert deck findR
      (fun _ => PostResponse.resp (some duplicate_error)) card).status = "SKIPPED" ∧
    (post_card_to_deck_v2 upsert deck findR
      (fun _ => PostResponse.resp (some e)) card).status = "FAILED" ∧
    tallyStep st "SUCCESS" = {st with success_count := st.success_count + 1} ∧
    tallyStep st "FAILED" = {st with failed_count := st.failed_count + 1} ∧
    tallyStep st "SKIPPED" = {st with skipped_count := st.skipped_count + 1} := by
  refine ⟨?_, ?_, ?_, ?_, ?_, ?_⟩
  · unfold post_card_to_deck_v2
    simp
  · unfold post_card_to_deck_v2
    simp [pyTruthyStr, duplicate_error]
  · unfold post_card_to_deck_v2
    simp [pyTruthyStr, he1, he2]
  · unfold tallyStep
    simp
  · unfold tallyStep
    simp
  · unfold tallyStep
    simp

theorem post_v2_outcomes_witness :
    (post_card_to_deck_v2 true "d" (fun _ => FindResponse.raise)
      (fun _ => PostResponse.resp (some "boom")) {front := "f"}).status = "FAILED" ∧
    tallyStep ({} : RunState) "FAILED" = {failed_count := 1} := by
  have h := post_v2_outcomes true "d" (fun _ => FindResponse.raise) {front := "f"}
    "boom" ({} : RunState) (by decide) (by decide)
  exact ⟨h.2.2.1, h.2.2.2.2.1⟩

/-- C5: a note whose extracted TagSet contains the reserved value
`not_included` builds a Card with `should_skip = true` and the fixed
skip-notice back, reports no identifiers from its own content (the skip
path returns before the link pass), and its submission short-circuits to
SKIPPED with zero store calls; the run's tally step then counts it as
skipped. -/
theorem create_card_not_included (render : String → String)
    (card_pfx filename content : String) (skip_submission upsert : Bool)
    (deck : String) (findR : String → FindResponse)
    (postR : Payload → PostResponse) (st : RunState)
    (h : not_included_tag ∈ (create_card render card_pfx filename content).1.tags) :
    (create_card render card_pfx filename content).1.should_skip = true ∧
    (create_card render card_pfx filename content).1.back = skip_back ∧
    (create_card render card_pfx filename content).2 = [] ∧
    process_card_submission skip_submission upsert deck findR postR
      (create_card render card_pfx filename content).1 = ("SKIPPED", []) ∧
    tallyStep st "SKIPPED" = {st with skipped_count := st.skipped_count + 1} := by
  by_cases hc : (cardTags (separate_frontmatter content).1
      (separate_frontmatter content).2).contains not_included_tag
  · have hcard : create_card render card_pfx filename content =
        ({front := card_pfx ++ filename, back := skip_back,
          frontmatter := (separate_frontmatter content).1,
          staged_content := (separate_frontmatter content).2, should_skip := true,
          tags := cardTags (separate_frontmatter content).1
            (separate_frontmatter content).2}, []) := by
      unfold create_card
      rw [if_pos hc]
    refine ⟨by rw [hcard], by rw [hcard], by rw [hcard], ?_, ?_⟩
    · rw [hcard]
      unfold process_card_submission
      rw [if_pos rfl]
    · unfold tallyStep
      simp
  · exfalso
    have htags : (create_card render card_pfx filename content).1.tags =
        cardTags (separate_frontmatter content).1 (separate_frontmatter content).2 := by
      unfold create_card
      rw [if_neg hc]
    rw [htags] at h
    exact hc ((contains_iff_mem _ _).mpr h)

theorem create_card_not_included_witness :
    (create_card (fun s => s) "" "n" "#not_included").1.should_skip = true ∧
    (create_card (fun s => s) "" "n" "#not_included").2 = [] ∧
    process_card_submission false true "d" (fun _ => FindResponse.raise)
      (fun _ => PostResponse.raise)
      (create_card (fun s => s) "" "n" "#not_included").1 = ("SKIPPED", []) := by
  have h := create_card_not_included (fun s => s) "" "n" "#not_included" false true
    "d" (fun _ => FindResponse.raise) (fun _ => PostResponse.raise) ({} : RunState)
    (by decide)
  exact ⟨h.1, h.2.2.1, h.2.2.2.1⟩

/-- C6, counterexample: `"a\n---\nb"` contains no image reference and no
cross-reference, yet the rewriter (whose link pass ends by truncating at
the first `"\n---\n"`) does not return it unchanged. -/
theorem rewriter_truncation_cex :
    containsImageRef "a\n---\nb".toList = false ∧
    containsLinkRef "a\n---\nb".toList = false ∧
    (extract_and_replace_obsidian_links
      (extract_and_replace_images "a\n---\nb")).1 ≠ "a\n---\nb" := by decide

/-- C6 (amended): a content block containing no image reference, no
cross-reference and no occurrence of the truncation separator `"\n---\n"`
passes through the full rewriter (image masking, then cross-reference
rewriting with its trailing truncation) unchanged, with no identifiers
discovered. -/
theorem rewriter_id_of_no_markers (s : String)
    (h1 : containsImageRef s.toList = false)
    (h2 : containsLinkRef s.toList = false)
    (h3 : containsSepMark s.toList = false) :
    extract_and_replace_images s = s ∧
    extract_and_replace_obsidian_links (extract_and_replace_images s) = (s, []) := by
  have himg : extract_and_replace_images s = s := by
    unfold extract_and_replace_images
    rw [subImagesAux_id _ _ h1, mk_toList]
  refine ⟨himg, ?_⟩
  rw [himg]
  unfold extract_and_replace_obsidian_links
  rw [subLinksAux_id _ _ h2]
  simp only []
  rw [truncAtSep_id _ h3, mk_toList]

theorem rewriter_id_of_no_markers_witness :
    extract_and_replace_obsidian_links
      (extract_and_replace_images "hello - world") = ("hello - world", []) :=
  (rewriter_id_of_no_markers "hello - world" (by decide) (by decide) (by decide)).2

/-- C7: the content splitter is a total function; when the content does
not open with the metadata delimiter it returns empty metadata and the
content unchanged, and when the opening delimiter is never closed
(malformed delimiters) it likewise falls back to empty metadata with the
content unchanged.  (The splitter delegates to the third-party
`frontmatter.parse`, modelled here from the spec.) -/
theorem separate_frontmatter_total (content : String) :
    (openingDelim.isPrefixOf content.toList = false →
      separate_frontmatter content = ([], content)) ∧
    (findClose content.toList.length (content.toList.drop 4) = none →
      separate_frontmatter content = ([], content)) := by
  constructor
  · intro h
    unfold separate_frontmatter
    rw [if_neg (show ¬(openingDelim.isPrefixOf content.toList = true) by rw [h]; decide)]
  · intro h
    unfold separate_frontmatter
    split_ifs with hp
    · rw [h]
    · rfl

theorem separate_frontmatter_total_witness :
    separate_frontmatter "hello" = ([], "hello") ∧
    separate_frontmatter "---\nbroken open" = ([], "---\nbroken open") :=
  ⟨(separate_frontmatter_total "hello").1 (by decide),
   (separate_frontmatter_total "---\nbroken open").2 (by decide)⟩

/-- C8, counterexample: the identifier `"NOTE.md"` carries an extension
and matches the listed markdown file `"note.md"` case-insensitively after
extension stripping, yet resolution fails: the code lowercases the
identifier verbatim (extension included) and compares it against the
file's extension-stripped name. -/
theorem read_file_ext_cex :
    pyLower (pySplitext "NOTE.md").1 = pyLower (pySplitext "note.md").1 ∧
    read_file_case_insensitive_simple "NOTE.md" [("note.md", "x")] =
      Except.error ReadErr.fileNotFound := by decide

/-- C8 (amended): resolution is case-insensitive but compares the
identifier verbatim (it must not carry an extension) against the
extension-stripped name of each `.md`/`.markdown` listing entry; some
entry matching guarantees success, no entry matching yields the not-found
error, and the run controller turns a resolution error into exactly one
FAILED tally without aborting. -/
theorem read_file_spec (filename : String) (files : List (String × String))
    (env : RunEnv) (st : RunState) (f : String) (e : ReadErr) :
    ((∃ fc ∈ files, fileMatches filename fc.1 = true) →
      ∃ c, read_file_case_insensitive_simple filename files = Except.ok c) ∧
    ((∀ fc ∈ files, fileMatches filename fc.1 = false) →
      read_file_case_insensitive_simple filename files =
        Except.error ReadErr.fileNotFound) ∧
    (read_file_case_insensitive_simple f env.folder_files = Except.error e →
      processFile env st f = {st with failed_count := st.failed_count + 1}) := by
  refine ⟨?_, ?_, ?_⟩
  · rintro ⟨fc, hmem, hmatch⟩
    unfold read_file_case_insensitive_simple
    cases hf : files.find? (fun fc => fileMatches filename fc.1) with
    | none =>
      exfalso
      have := List.find?_eq_none.mp hf fc hmem
      simp [hmatch] at this
    | some fc2 => exact ⟨fc2.2, rfl⟩
  · intro h
    unfold read_file_case_insensitive_simple
    rw [List.find?_eq_none.mpr (fun a ha => by simp [h a ha])]
  · intro h
    exact processFile_eq_error env st f e h

theorem read_file_spec_witness :
    (∃ c, read_file_case_insensitive_simple "a" [("A.md", "hi")] = Except.ok c) ∧
    read_file_case_insensitive_simple "b" [("A.md", "hi")] =
      Except.error ReadErr.fileNotFound ∧
    processFile {folder_files := []} ({} : RunState) "b" = {failed_count := 1} :=
  ⟨(read_file_spec "a" [("A.md", "hi")] {folder_files := []} ({} : RunState) "b"
      ReadErr.fileNotFound).1 (by decide),
   (read_file_spec "b" [("A.md", "hi")] {folder_files := []} ({} : RunState) "b"
      ReadErr.fileNotFound).2.1 (by decide),
   (read_file_spec "b" [("A.md", "hi")] {folder_files := []} ({} : RunState) "b"
      ReadErr.fileNotFound).2.2 (by decide)⟩

/-- C9, counterexample: a skip-marked note keeps its extension in the
card identity: for filename `"note.md"` the built front is `"pnote.md"`,
not the prefix concatenated with the extension-stripped identifier
`"pnote"`. -/
theorem create_card_skip_front_cex :
    (create_card (fun s => s) "p" "note.md" "#not_included").1.front = "pnote.md" ∧
    "pnote.md" ≠ "p" ++ (pySplitext "note.md").1 := by decide

/-- C9 (amended): for a non-skip-marked note the card identity is the
configured prefix concatenated with the extension-stripped identifier;
for a skip-marked note it is the prefix concatenated with the identifier
verbatim (extension kept). -/
theorem create_card_front (render : String → String)
    (card_pfx filename content : String) :
    ((create_card render card_pfx filename content).1.should_skip = false →
      (create_card render card_pfx filename content).1.front =
        card_pfx ++ (pySplitext filename).1) ∧
    ((create_card render card_pfx filename content).1.should_skip = true →
      (create_card render card_pfx filename content).1.front =
        card_pfx ++ filename) := by
  unfold create_card pySplitext
  by_cases hc : (cardTags (separate_frontmatter content).1
      (separate_frontmatter content).2).contains not_included_tag
  · rw [if_pos hc]
    exact ⟨fun h => by simp at h, fun _ => rfl⟩
  · rw [if_neg hc]
    exact ⟨fun _ => rfl, fun h => by simp at h⟩

theorem create_card_front_witness :
    (create_card (fun s => s) "q" "n.md" "hello").1.front = "qn" ∧
    (create_card (fun s => s) "q" "n.md" "#not_included").1.front = "qn.md" :=
  ⟨(create_card_front (fun s => s) "q" "n.md" "hello").1 (by decide),
   (create_card_front (fun s => s) "q" "n.md" "#not_included").2 (by decide)⟩

/-- C10: a failed existence lookup — the request raising, or the response
carrying a Python-truthy error payload — is swallowed inside
`check_card_existence`, which returns `None`; the submission then
proceeds as an `addNote` carrying the Front field, with payload and
status identical to those of a plain create (so no FAILED outcome and no
tally change can come from the lookup failure alone). -/
theorem check_failure_treated_absent (deck : String)
    (findR : String → FindResponse) (postR : Payload → PostResponse)
    (card : Card) (r : FindResult)
    (hf : findR (buildQuery deck card.front) = FindResponse.raise ∨
      (findR (buildQuery deck card.front) = FindResponse.resp r ∧
        pyTruthyStr r.error = true)) :
    check_card_existence deck findR card.front = none ∧
    (post_card_to_deck_v2 true deck findR postR card).payload.action = "addNote" ∧
    (post_card_to_deck_v2 true deck findR postR card).payload.note.fields.Front =
      some card.front ∧
    (post_card_to_deck_v2 true deck findR postR card).payload =
      (post_card_to_deck_v2 false deck findR postR card).payload ∧
    (post_card_to_deck_v2 true deck findR postR card).status =
      (post_card_to_deck_v2 false deck findR postR card).status := by
  have hc : check_card_existence deck findR card.front = none := by
    unfold check_card_existence
    rcases hf with hf | ⟨hf, he⟩
    · rw [hf]
    · rw [hf]
      simp [he]
  refine ⟨hc, ?_, ?_, ?_, ?_⟩ <;>
    · unfold post_card_to_deck_v2
      rw [hc]
      rfl

theorem check_failure_treated_absent_witness :
    check_card_existence "d" (fun _ => FindResponse.raise) "f" = none ∧
    (post_card_to_deck_v2 true "d" (fun _ => FindResponse.raise)
      (fun _ => PostResponse.resp none)
      {front := "f", back := "b"}).payload.action = "addNote" := by
  have h := check_failure_treated_absent "d" (fun _ => FindResponse.raise)
    (fun _ => PostResponse.resp none) {front := "f", back := "b"}
    {error := some "boom"} (Or.inl rfl)
  exact ⟨h.1, h.2.1⟩
